import Mathlib

/-!
Shallow embedding of the JSONPath template resolver found in the bundled
job script (dist/index.js, the template utilities section), together with
theorems checking the claims of the specification against it.

JavaScript values flowing through the resolver are JSON-shaped (mappings,
arrays, strings, numbers, booleans, null); they are modelled by the Json
inductive below.  JS numbers are modelled as integers: every number the
claims exercise is integral, and JSON.stringify agrees with decimal
printing on integers.  The mutation-free JS code is translated function by
function, keeping the source names.  Line numbers in comments refer to
dist/index.js.
-/

namespace TemplateResolver

/-- JSON-shaped JavaScript value (mapping fields keep insertion order). -/
inductive Json where
  | null : Json
  | bool : Bool → Json
  | num : Int → Json
  | str : String → Json
  | arr : List Json → Json
  | obj : List (String × Json) → Json

/-- Single-quote character, written via its code point. -/
def singleQuote : Char := Char.ofNat 39

/-- Single-quote character as a one-character string. -/
def sq : String := String.singleton singleQuote

/-- Constant NO_VALUE_PLACEHOLDER from line 24 of the source: the text
substituted for an unresolvable template. -/
def NO_VALUE_PLACEHOLDER : String := "\x7bNo Value\x7d"

/-- Error message pushed when a path is not found (line 193): the text
reads: failed to extract field, the quoted path, then: field not found. -/
def notFoundMsg (p : String) : String :=
  "failed to extract field " ++ sq ++ p ++ sq ++ ": field not found"

/-- Error message pushed when a found value stringifies to the empty
string (line 206): the text reads: failed to extract field, the quoted
path, then: field is empty. -/
def emptyMsg (p : String) : String :=
  "failed to extract field " ++ sq ++ p ++ sq ++ ": field is empty"

/-- Stripping of the leading dollar and an optional following dot from a
path, mirroring lines 70 to 75 of the source. -/
def stripDollar (p : String) : String :=
  match p.data with
  | '$' :: '.' :: rest => String.mk rest
  | '$' :: rest => String.mk rest
  | _ => p

/-- Quote removal applied to a bracket segment (line 100): drop one
leading and one trailing single or double quote, each when present. -/
def stripQuotes (cs : List Char) : List Char :=
  let isQuote : Char → Bool := fun c => c = singleQuote || c = '"'
  let l1 := match cs with
    | [] => []
    | c :: rest => if isQuote c then rest else c :: rest
  match l1.getLast? with
  | some c => if isQuote c then l1.dropLast else l1
  | none => l1

/-- Segment-splitting loop of extractJSONPathValue (lines 84 to 117):
scan character by character with an in-bracket flag; a dot and an opening
bracket outside brackets and a closing bracket inside end the current
segment; bracket segments have surrounding quotes stripped; a trailing
buffer is pushed as a final segment. -/
def parsePathAux : List Char → List Char → Bool → List String
  | [], current, _ =>
      if current.isEmpty then [] else [String.mk current]
  | c :: rest, current, inBracket =>
      if c = '[' && !inBracket then
        (if current.isEmpty then [] else [String.mk current])
          ++ parsePathAux rest [] true
      else if c = ']' && inBracket then
        (if current.isEmpty then [] else [String.mk (stripQuotes current)])
          ++ parsePathAux rest [] false
      else if c = '.' && !inBracket then
        (if current.isEmpty then [] else [String.mk current])
          ++ parsePathAux rest [] inBracket
      else
        parsePathAux rest (current ++ [c]) inBracket

/-- Parsing of an (already dollar-stripped) path into segments. -/
def parsePath (path : String) : List String :=
  parsePathAux path.data [] false

/-- Digit-run test (the regex on line 131): nonempty and all decimal
digits. -/
def isDigits (s : String) : Bool :=
  !s.data.isEmpty && s.data.all (·.isDigit)

/-- Decimal integer parse of an all-digit segment (line 132). -/
def parseIntDec (s : String) : Nat :=
  s.data.foldl (fun n c => n * 10 + (c.toNat - 48)) 0

/-- Own-property lookup on the field list of a mapping (the
hasOwnProperty test plus access, lines 137 to 138); first match wins. -/
def lookupField : List (String × Json) → String → Option Json
  | [], _ => none
  | (k, v) :: rest, key => if k = key then some v else lookupField rest key

/-- Test for the value being exactly null (line 145). -/
def Json.isNull : Json → Bool
  | Json.null => true
  | _ => false

/-- Traversal loop of extractJSONPathValue (lines 120 to 142): follow
segments from the root; null or a non-object short-circuits to failure;
an all-digit segment on an array is a bounds-checked index (the only
other own property of an array is its length); otherwise an own-key
lookup. -/
def walk : List String → Json → Option Json
  | [], v => some v
  | _ :: _, Json.null => none
  | _ :: _, Json.bool _ => none
  | _ :: _, Json.num _ => none
  | _ :: _, Json.str _ => none
  | seg :: rest, Json.arr xs =>
      if isDigits seg then
        match xs.get? (parseIntDec seg) with
        | some v => walk rest v
        | none => none
      else if seg = "length" then
        walk rest (Json.num (Int.ofNat xs.length))
      else none
  | seg :: rest, Json.obj fs =>
      match lookupField fs seg with
      | some v => walk rest v
      | none => none

/-- Function extractJSONPathValue (lines 67 to 153): strip the leading
dollar and optional dot; an empty remaining path returns the whole
context as found; otherwise parse and traverse, and a final value of
exactly null is reported not found. -/
def extractJSONPathValue (json : Json) (jsonPath : String) : Json × Bool :=
  let path := stripDollar jsonPath
  if path = "" then (json, true)
  else
    match walk (parsePath path) json with
    | none => (Json.null, false)
    | some v => if v.isNull then (Json.null, false) else (v, true)

/-- One hexadecimal digit character. -/
def hexDigit (n : Nat) : Char :=
  if n < 10 then Char.ofNat (48 + n) else Char.ofNat (87 + n)

/-- Four-digit hexadecimal escape body for a control character. -/
def hex4 (n : Nat) : String :=
  String.mk [hexDigit (n / 4096 % 16), hexDigit (n / 256 % 16),
             hexDigit (n / 16 % 16), hexDigit (n % 16)]

/-- Escaping performed by JSON.stringify on one character inside a string
literal. -/
def escapeJSONChar (c : Char) : String :=
  if c = '"' then ("\\\"")
  else if c = '\\' then ("\\\\")
  else if c = Char.ofNat 8 then ("\\b")
  else if c = Char.ofNat 9 then ("\\t")
  else if c = Char.ofNat 10 then ("\\n")
  else if c = Char.ofNat 12 then ("\\f")
  else if c = Char.ofNat 13 then ("\\r")
  else if c.toNat < 32 then ("\\u") ++ hex4 c.toNat
  else String.singleton c

/-- Serialization of a string by JSON.stringify. -/
def stringifyString (s : String) : String :=
  "\"" ++ String.join (s.data.map escapeJSONChar) ++ "\""

mutual

/-- Serialization by JSON.stringify on JSON-shaped values, without
indentation. -/
def stringify : Json → String
  | Json.null => "null"
  | Json.bool true => "true"
  | Json.bool false => "false"
  | Json.num n => toString n
  | Json.str s => stringifyString s
  | Json.arr xs => "[" ++ stringifyList xs ++ "]"
  | Json.obj fs => "\x7b" ++ stringifyFields fs ++ "\x7d"

/-- Comma-separated serialization of array elements. -/
def stringifyList : List Json → String
  | [] => ""
  | [x] => stringify x
  | x :: y :: rest => stringify x ++ "," ++ stringifyList (y :: rest)

/-- Comma-separated serialization of mapping fields. -/
def stringifyFields : List (String × Json) → String
  | [] => ""
  | [(k, v)] => stringifyString k ++ ":" ++ stringify v
  | (k, v) :: f :: rest =>
      stringifyString k ++ ":" ++ stringify v ++ "," ++ stringifyFields (f :: rest)

end

/-- Function valueToString (lines 161 to 171): null and undefined become
the empty string, strings pass through, everything else is
JSON-stringified. -/
def valueToString : Json → String
  | Json.null => ""
  | Json.str s => s
  | v => stringify v

/-- Components of a JavaScript Date as rendered by toISOString (always
UTC; a Date produced by the Date constructor always has in-range
components: month 1 to 12, day 1 to 31, hour below 24, minute and second
below 60, milliseconds below 1000). -/
structure JsDate where
  year : Nat
  month : Nat
  day : Nat
  hour : Nat
  minute : Nat
  second : Nat
  millis : Nat

/-- Decimal digit character for the low decimal digit of a number. -/
def digitChar (n : Nat) : Char := Char.ofNat (48 + n % 10)

/-- Two-digit zero-padded decimal rendering (for values below 100). -/
def pad2 (n : Nat) : String := String.mk [digitChar (n / 10), digitChar n]

/-- Three-digit zero-padded decimal rendering (for values below 1000). -/
def pad3 (n : Nat) : String :=
  String.mk [digitChar (n / 100), digitChar (n / 10), digitChar n]

/-- Four-digit zero-padded decimal rendering (for values below 10000). -/
def pad4 (n : Nat) : String :=
  String.mk [digitChar (n / 1000), digitChar (n / 100), digitChar (n / 10),
             digitChar n]

/-- Modelled JS builtin toISOString for years 0 to 9999 (the source calls
it on line 33): year, month, day, hour, minute, second and milliseconds,
zero-padded, with the fixed separators and the trailing Z. -/
def toISOString (d : JsDate) : String :=
  pad4 d.year ++ "-" ++ pad2 d.month ++ "-" ++ pad2 d.day ++ "T"
    ++ pad2 d.hour ++ ":" ++ pad2 d.minute ++ ":" ++ pad2 d.second
    ++ "." ++ pad3 d.millis ++ "Z"

/-- Millisecond-stripping replace of line 33: when the string ends in a
dot, three digits and Z, that suffix is replaced by Z. -/
def stripMillisZ (s : String) : String :=
  match s.data.reverse with
  | 'Z' :: c3 :: c2 :: c1 :: '.' :: rest =>
      if c1.isDigit && c2.isDigit && c3.isDigit then
        String.mk (rest.reverse ++ ['Z'])
      else s
  | _ => s

/-- Function formatRFC3339 (lines 31 to 34): the ISO timestamp with the
millisecond part stripped. -/
def formatRFC3339 (date : JsDate) : String :=
  stripMillisZ (toISOString date)

/-- Recognizer for the RFC-3339 second-precision UTC shape: four digits,
hyphen, two digits, hyphen, two digits, the letter T, three colon-speparated
two-digit groups, and the trailing letter Z. -/
def isRFC3339SecondZ (s : String) : Bool :=
  match s.data with
  | [y1, y2, y3, y4, a, m1, m2, b, d1, d2, t,
     h1, h2, c, n1, n2, e, s1, s2, z] =>
      y1.isDigit && y2.isDigit && y3.isDigit && y4.isDigit && a = '-'
        && m1.isDigit && m2.isDigit && b = '-' && d1.isDigit && d2.isDigit
        && t = 'T' && h1.isDigit && h2.isDigit && c = ':'
        && n1.isDigit && n2.isDigit && e = ':' && s1.isDigit && s2.isDigit
        && z = 'Z'
  | _ => false

/-- Plain-name property access as used by the optional chains on lines 49
and 52: an own-key lookup on a mapping; on null, scalars, arrays and
strings those plain names are absent (undefined, here none). -/
def jsGetProp : Json → String → Option Json
  | Json.obj fs, k => lookupField fs k
  | _, _ => none

/-- Enumerable own properties produced by object spread: a mapping
spreads its fields, an array its indexed elements, a string its indexed
characters, and every other value spreads nothing. -/
def spreadFields : Json → List (String × Json)
  | Json.obj fs => fs
  | Json.arr xs => xs.enum.map (fun p => (toString p.1, p.2))
  | Json.str s =>
      s.data.enum.map (fun p => (toString p.1, Json.str (String.singleton p.2)))
  | _ => []

/-- Spread of a possibly-undefined value. -/
def spreadOpt : Option Json → List (String × Json)
  | none => []
  | some v => spreadFields v

/-- Setting a property on an object literal under construction: an
existing key keeps its position and gets the new value, a new key is
appended. -/
def jsInsert (fs : List (String × Json)) (k : String) (v : Json) :
    List (String × Json) :=
  if (fs.map Prod.fst).contains k then
    fs.map (fun kv => if kv.1 = k then (k, v) else kv)
  else fs ++ [(k, v)]

/-- Spreading a field list into an object literal under construction. -/
def jsSpreadInto (acc : List (String × Json)) (fs : List (String × Json)) :
    List (String × Json) :=
  fs.foldl (fun a kv => jsInsert a kv.1 kv.2) acc

/-- Field list of the inner time object of lines 50 to 53: the freshly
formatted now, then the spread of the callers sgnl.time value, whose
fields override the fresh one on key collision. -/
def injTimeFields (jobContext : Json) (now : JsDate) : List (String × Json) :=
  jsSpreadInto [("now", Json.str (formatRFC3339 now))]
    (spreadOpt ((jsGetProp jobContext ("sgnl")).bind
      (fun s => jsGetProp s ("time"))))

/-- Field list of the sgnl object of lines 48 to 54: the spread of the
callers sgnl value, with the time key set to the merged time object. -/
def injSgnlFields (jobContext : Json) (now : JsDate) : List (String × Json) :=
  jsInsert (jsSpreadInto [] (spreadOpt (jsGetProp jobContext ("sgnl"))))
    ("time") (Json.obj (injTimeFields jobContext now))

/-- Function injectSGNLNamespace (lines 43 to 56): a copy of the context
with the sgnl key set to the merged namespace object.  The current
instant (line 44) is passed in explicitly as now; it is computed once per
call. -/
def injectSGNLNamespace (jobContext : Json) (now : JsDate) : Json :=
  Json.obj (jsInsert (jsSpreadInto [] (spreadFields jobContext))
    ("sgnl") (Json.obj (injSgnlFields jobContext now)))

/-- Options object: boolean-valued fields keyed by name (a JS object has
unique keys; unrecognized keys are ignored by destructuring). -/
def Options : Type := List (String × Bool)

/-- Destructuring read of a boolean option with a default. -/
def getOpt : Options → String → Bool → Bool
  | [], _, dflt => dflt
  | (k, v) :: rest, key, dflt => if k = key then v else getOpt rest key dflt

/-- Replacement callback of the template replace call (lines 189 to 211):
extract the value at the path; not found pushes a field-not-found error
and substitutes the empty string when the whole string is an exact
template and the omit option is set, else the placeholder; a found value
whose string form is empty pushes a field-is-empty error and substitutes
the empty string. -/
def replaceMatch (jobContext : Json) (om exact : Bool) (jsonPath : String) :
    String × List String :=
  let r := extractJSONPathValue jobContext jsonPath
  if !r.2 then
    (if exact && om then "" else NO_VALUE_PLACEHOLDER, [notFoundMsg jsonPath])
  else
    let strValue := valueToString r.1
    if strValue = "" then ("", [emptyMsg jsonPath])
    else (strValue, [])

/-- State of the left-to-right scan for TEMPLATE_PATTERN (line 14): the
regex matching an opening brace, a dollar, one or more characters other
than a closing brace, and a closing brace, applied globally. -/
inductive ScanState where
  | outside : ScanState
  | afterBrace : ScanState
  | inTemplate : List Char → ScanState

/-- Single pass implementing the global replace of TEMPLATE_PATTERN
(line 189): leftmost non-overlapping occurrences of an opening brace, a
dollar, one or more non-closing-brace characters, and a closing brace are
replaced by the callback text; everything else is copied.  The afterBrace
state holds a pending opening brace, and inTemplate holds a pending
opener and dollar with the accumulated path characters; a pending prefix
abandoned without a closing brace is emitted verbatim, exactly as the
regex finds no match there (no later match can begin inside an abandoned
prefix, since such a match would need an unconsumed closing brace). -/
def scanTemplate (jobContext : Json) (om exact : Bool) :
    List Char → ScanState → List Char × List String
  | [], ScanState.outside => ([], [])
  | [], ScanState.afterBrace => (['{'], [])
  | [], ScanState.inTemplate inner => ('{' :: '$' :: inner, [])
  | c :: rest, ScanState.outside =>
      if c = '{' then scanTemplate jobContext om exact rest ScanState.afterBrace
      else
        let r := scanTemplate jobContext om exact rest ScanState.outside
        (c :: r.1, r.2)
  | c :: rest, ScanState.afterBrace =>
      if c = '$' then
        scanTemplate jobContext om exact rest (ScanState.inTemplate [])
      else if c = '{' then
        let r := scanTemplate jobContext om exact rest ScanState.afterBrace
        ('{' :: r.1, r.2)
      else
        let r := scanTemplate jobContext om exact rest ScanState.outside
        ('{' :: c :: r.1, r.2)
  | c :: rest, ScanState.inTemplate inner =>
      if c = '}' then
        if inner.isEmpty then
          let r := scanTemplate jobContext om exact rest ScanState.outside
          ('{' :: '$' :: '}' :: r.1, r.2)
        else
          let m := replaceMatch jobContext om exact (String.mk ('$' :: inner))
          let r := scanTemplate jobContext om exact rest ScanState.outside
          (m.1.data ++ r.1, m.2 ++ r.2)
      else
        scanTemplate jobContext om exact rest (ScanState.inTemplate (inner ++ [c]))

/-- Split of a character list at its first closing brace, when one
exists. -/
def splitAtBrace : List Char → Option (List Char × List Char)
  | [] => none
  | c :: rest =>
      if c = '}' then some ([], rest)
      else
        match splitAtBrace rest with
        | some p => some (c :: p.1, p.2)
        | none => none

/-- Test against EXACT_TEMPLATE_PATTERN (line 19): the whole string is an
opening brace, a dollar, one or more non-closing-brace characters, and a
final closing brace. -/
def isExactTemplate (s : String) : Bool :=
  match s.data with
  | '{' :: '$' :: rest =>
      match splitAtBrace rest with
      | some p => !p.1.isEmpty && p.2.isEmpty
      | none => false
  | _ => false

/-- Function resolveTemplateString (lines 182 to 214): determine whether
the whole string is one exact template, then replace every template
occurrence, accumulating errors in encounter order. -/
def resolveTemplateString (templateString : String) (jobContext : Json)
    (options : Options) : String × List String :=
  let om := getOpt options ("omitNoValueForExactTemplates") false
  let isExact := isExactTemplate templateString
  let r := scanTemplate jobContext om isExact templateString.data ScanState.outside
  (String.mk r.1, r.2)

/-- JS falsiness on JSON-shaped values (the context defaulting on
line 252). -/
def jsFalsy : Json → Bool
  | Json.null => true
  | Json.bool b => !b
  | Json.num n => n = 0
  | Json.str s => s = ""
  | _ => false

/-- Test for the value being the empty string (the strict comparisons on
lines 269 and 280). -/
def isEmptyStr : Json → Bool
  | Json.str s => s = ""
  | _ => false

mutual

/-- Inner resolveValue of resolveJSONPathTemplates (lines 259 to 291):
strings go through resolveTemplateString; arrays resolve elementwise and,
under the omit option, drop elements whose resolved value is the empty
string; mappings resolve values and, under the same option, omit keys
whose resolved value is the empty string; other scalars pass through. -/
def resolveValue (ctx : Json) (om : Bool) : Json → Json × List String
  | Json.str s =>
      let r := resolveTemplateString s ctx [("omitNoValueForExactTemplates", om)]
      (Json.str r.1, r.2)
  | Json.arr xs =>
      let r := resolveList ctx om xs
      (Json.arr (if om then r.1.filter (fun item => !isEmptyStr item) else r.1),
       r.2)
  | Json.obj fs =>
      let r := resolveFields ctx om fs
      (Json.obj r.1, r.2)
  | Json.null => (Json.null, [])
  | Json.bool b => (Json.bool b, [])
  | Json.num n => (Json.num n, [])

/-- Elementwise resolution of an array (line 267), errors in element
order. -/
def resolveList (ctx : Json) (om : Bool) : List Json → List Json × List String
  | [] => ([], [])
  | x :: rest =>
      let r := resolveValue ctx om x
      let rs := resolveList ctx om rest
      (r.1 :: rs.1, r.2 ++ rs.2)

/-- Fieldwise resolution of a mapping (lines 276 to 285): each value is
resolved (errors recorded even for omitted keys), and under the omit
option a key whose resolved value is the empty string is skipped. -/
def resolveFields (ctx : Json) (om : Bool) :
    List (String × Json) → List (String × Json) × List String
  | [] => ([], [])
  | (k, v) :: rest =>
      let r := resolveValue ctx om v
      let rs := resolveFields ctx om rest
      (if om && isEmptyStr r.1 then rs.1 else (k, r.1) :: rs.1, r.2 ++ rs.2)

end

/-- Function resolveJSONPathTemplates (lines 245 to 296), the public
entry point: read the two options (falling back to their defaults),
replace a falsy context by the empty mapping, inject the SGNL namespace
unless disabled, then recursively resolve.  The parameter now is the
instant read once at injection time (line 44). -/
def resolveJSONPathTemplates (input : Json) (jobContext : Json)
    (options : Options) (now : JsDate) : Json × List String :=
  let om := getOpt options ("omitNoValueForExactTemplates") false
  let shouldInjectSgnl := getOpt options ("injectSGNLNamespace") true
  let ctxOrEmpty := if jsFalsy jobContext then Json.obj [] else jobContext
  let resolvedJobContext :=
    if shouldInjectSgnl then injectSGNLNamespace ctxOrEmpty now else ctxOrEmpty
  resolveValue resolvedJobContext om input

/-- Occurrence test: does the scan ever reach a closed template with a
nonempty path (the condition under which the replace callback runs)?
Mirrors the state machine of scanTemplate. -/
def hasOccAux : List Char → ScanState → Bool
  | [], _ => false
  | c :: rest, ScanState.outside =>
      if c = '{' then hasOccAux rest ScanState.afterBrace
      else hasOccAux rest ScanState.outside
  | c :: rest, ScanState.afterBrace =>
      if c = '$' then hasOccAux rest (ScanState.inTemplate [])
      else if c = '{' then hasOccAux rest ScanState.afterBrace
      else hasOccAux rest ScanState.outside
  | c :: rest, ScanState.inTemplate inner =>
      if c = '}' then
        if inner.isEmpty then hasOccAux rest ScanState.outside else true
      else hasOccAux rest (ScanState.inTemplate (inner ++ [c]))

/-- Does a string contain at least one template occurrence? -/
def stringHasTemplate (s : String) : Bool := hasOccAux s.data ScanState.outside

/-- Characters held back by a scan state, emitted verbatim when no match
completes. -/
def statePending : ScanState → List Char
  | ScanState.outside => []
  | ScanState.afterBrace => ['{']
  | ScanState.inTemplate inner => '{' :: '$' :: inner

mutual

/-- Template-freeness of a JSON-shaped value: no string anywhere in it
(object keys are never scanned by the resolver) contains a template
occurrence. -/
def templateFree : Json → Bool
  | Json.str s => !stringHasTemplate s
  | Json.arr xs => templateFreeList xs
  | Json.obj fs => templateFreeFields fs
  | Json.null => true
  | Json.bool _ => true
  | Json.num _ => true

/-- Template-freeness of every element of a list. -/
def templateFreeList : List Json → Bool
  | [] => true
  | x :: rest => templateFree x && templateFreeList rest

/-- Template-freeness of every value of a field list. -/
def templateFreeFields : List (String × Json) → Bool
  | [] => true
  | (_, v) :: rest => templateFree v && templateFreeFields rest

end

/-! Helper lemmas about the scanner on strings that are one whole
template occurrence. -/

/-- Scanning characters that are not closing braces inside a template
only accumulates them into the pending path. -/
theorem scan_inTemplate_shift (ctx : Json) (om ex : Bool) (q : List Char)
    (hq : ∀ c ∈ q, c ≠ '}') :
    ∀ (cs inner : List Char),
      scanTemplate ctx om ex (q ++ cs) (ScanState.inTemplate inner)
        = scanTemplate ctx om ex cs (ScanState.inTemplate (inner ++ q)) := by
  induction q with
  | nil => intro cs inner; simp
  | cons c rest ih =>
      intro cs inner
      have hc : ¬(c = '}') := hq c (List.mem_cons_self c rest)
      have hrest : ∀ x ∈ rest, x ≠ '}' := fun x hx => hq x (List.mem_cons_of_mem c hx)
      simp only [List.cons_append, scanTemplate, if_neg hc]
      have h2 := ih hrest cs (inner ++ [c])
      have h3 : inner ++ [c] ++ rest = inner ++ c :: rest := by simp
      rw [h3] at h2
      exact h2

/-- Scanning a string that is exactly one template occurrence yields
exactly the replacement of that occurrence. -/
theorem scan_template_exact (ctx : Json) (om ex : Bool) (q : List Char)
    (hne : q ≠ []) (hq : ∀ c ∈ q, c ≠ '}') :
    scanTemplate ctx om ex ('{' :: '$' :: (q ++ ['}'])) ScanState.outside
      = ((replaceMatch ctx om ex (String.mk ('$' :: q))).1.data,
         (replaceMatch ctx om ex (String.mk ('$' :: q))).2) := by
  have h1 : scanTemplate ctx om ex ('{' :: '$' :: (q ++ ['}'])) ScanState.outside
      = scanTemplate ctx om ex (q ++ ['}']) (ScanState.inTemplate []) := by
    simp [scanTemplate]
  rw [h1, scan_inTemplate_shift ctx om ex q hq ['}'] []]
  have hemp : q.isEmpty = false := by
    cases q with
    | nil => exact absurd rfl hne
    | cons a as => rfl
  simp only [List.nil_append]
  simp [scanTemplate, hemp]

/-- Splitting at the first closing brace of a list that starts with
brace-free characters. -/
theorem splitAtBrace_append (q rest : List Char) (hq : ∀ c ∈ q, c ≠ '}') :
    splitAtBrace (q ++ '}' :: rest) = some (q, rest) := by
  induction q with
  | nil => simp [splitAtBrace]
  | cons c cs ih =>
      have hc : ¬(c = '}') := hq c (List.mem_cons_self c cs)
      have hcs : ∀ x ∈ cs, x ≠ '}' := fun x hx => hq x (List.mem_cons_of_mem c hx)
      simp [splitAtBrace, if_neg hc, ih hcs]

/-- A string made of an opening brace, a dollar, a nonempty brace-free
path and a closing brace passes the exact-template test. -/
theorem isExactTemplate_concat (q : String) (hne : q.data ≠ [])
    (hq : ∀ c ∈ q.data, c ≠ '}') :
    isExactTemplate ("\x7b$" ++ q ++ "\x7d") = true := by
  have h2 : isExactTemplate ("\x7b$" ++ q ++ "\x7d")
      = (match splitAtBrace (q.data ++ '}' :: []) with
         | some p => !p.1.isEmpty && p.2.isEmpty
         | none => false) := rfl
  rw [h2, splitAtBrace_append q.data [] hq]
  cases hd : q.data with
  | nil => exact absurd hd hne
  | cons a as => simp [hd]

/-- Resolving a string that is exactly one template is the per-occurrence
replacement with the exact flag set. -/
theorem resolveTemplateString_exact (ctx : Json) (opts : Options) (q : String)
    (hne : q.data ≠ []) (hq : ∀ c ∈ q.data, c ≠ '}') :
    resolveTemplateString ("\x7b$" ++ q ++ "\x7d") ctx opts
      = replaceMatch ctx (getOpt opts ("omitNoValueForExactTemplates") false)
          true ("$" ++ q) := by
  have hdata : ("\x7b$" ++ q ++ "\x7d").data = '{' :: '$' :: (q.data ++ ['}']) := rfl
  have hpath : String.mk ('$' :: q.data) = "$" ++ q := rfl
  rw [resolveTemplateString, isExactTemplate_concat q hne hq, hdata,
    scan_template_exact ctx _ true q.data hne hq, hpath]

/-- C1.  For every context lacking a value at path p (extraction reports
not found), resolving the exact-template string consisting solely of that
template yields the literal placeholder text together with exactly one
field-not-found error naming the path; the substitution is the empty
string instead if and only if the omitNoValueForExactTemplates option is
set (the string being an exact template). -/
theorem claim1_exact_template_not_found (ctx : Json) (q : String) (opts : Options)
    (hne : q.data ≠ []) (hq : ∀ c ∈ q.data, c ≠ '}')
    (hnf : extractJSONPathValue ctx ("$" ++ q) = (Json.null, false)) :
    resolveTemplateString ("\x7b$" ++ q ++ "\x7d") ctx opts
      = (if getOpt opts ("omitNoValueForExactTemplates") false then ""
         else NO_VALUE_PLACEHOLDER,
         [notFoundMsg ("$" ++ q)]) := by
  rw [resolveTemplateString_exact ctx opts q hne hq]
  simp [replaceMatch, hnf]

/-- Witness for C1 at the missing path, under default options and under
the omit option. -/
theorem claim1_exact_template_not_found_witness :
    resolveTemplateString ("\x7b$" ++ ".missing" ++ "\x7d") (Json.obj []) []
      = (NO_VALUE_PLACEHOLDER, [notFoundMsg ("$" ++ ".missing")])
    ∧ resolveTemplateString ("\x7b$" ++ ".missing" ++ "\x7d") (Json.obj [])
        [("omitNoValueForExactTemplates", true)]
      = ("", [notFoundMsg ("$" ++ ".missing")]) :=
  ⟨claim1_exact_template_not_found (Json.obj []) (".missing") []
      (by decide) (by decide) rfl,
   claim1_exact_template_not_found (Json.obj []) (".missing")
      [("omitNoValueForExactTemplates", true)] (by decide) (by decide) rfl⟩

/-- C4 counterexample.  The two-character path-less template candidate
(opening brace, dollar, closing brace) is matched by neither pattern: the
resolver returns the string unchanged with no errors, and this string is
not the canonical string form of the context, refuting the claim that it
resolves to the whole context. -/
theorem claim4_counterexample :
    resolveTemplateString ("\x7b$\x7d") (Json.obj [("a", Json.num 1)]) []
      = ("\x7b$\x7d", [])
    ∧ valueToString (Json.obj [("a", Json.num 1)]) ≠ ("\x7b$\x7d") :=
  ⟨rfl, by decide⟩

/-- C4 amended.  A template expression is an opening brace, a dollar, ONE
or more non-closing-brace characters and a closing brace (the pattern on
line 14 uses a one-or-more repetition), so the string consisting of just
an opening brace, a dollar and a closing brace is not a template: it is
not an exact template and resolving it returns it unchanged with no
errors, for every context and options.  The extractor itself, handed the
bare dollar path, does report the whole context as found. -/
theorem claim4_amended (ctx : Json) (opts : Options) :
    resolveTemplateString ("\x7b$\x7d") ctx opts = ("\x7b$\x7d", [])
    ∧ isExactTemplate ("\x7b$\x7d") = false
    ∧ extractJSONPathValue ctx ("$") = (ctx, true) :=
  ⟨rfl, rfl, rfl⟩

/-- C5 counterexample.  On the zero-segment whole-context path, the
extractor reaches the context itself; with the context exactly null it
still reports found (the early return on line 79 precedes the null
check), refuting the claim that a reached null is always not found. -/
theorem claim5_counterexample :
    extractJSONPathValue Json.null ("$") = (Json.null, true) := rfl

/-- C5 amended.  For every path whose dollar-stripped form is nonempty
(so the traversal loop and final null check run): reaching exactly null
after exhausting all segments reports not found, a failed traversal
reports not found, and any other reached value, including zero, false,
the empty sequence and the empty mapping, is reported found with that
value.  The zero-segment path is the exception: it reports the context
found even when the context is exactly null. -/
theorem claim5_amended (ctx : Json) (p : String) (h : stripDollar p ≠ "") :
    (walk (parsePath (stripDollar p)) ctx = some Json.null →
       extractJSONPathValue ctx p = (Json.null, false))
    ∧ (walk (parsePath (stripDollar p)) ctx = none →
       extractJSONPathValue ctx p = (Json.null, false))
    ∧ (∀ v, walk (parsePath (stripDollar p)) ctx = some v → v.isNull = false →
       extractJSONPathValue ctx p = (v, true))
    ∧ (∀ c : Json, extractJSONPathValue c ("$") = (c, true)) := by
  refine ⟨fun hw => ?_, fun hw => ?_, fun v hw hv => ?_, fun c => rfl⟩
  · simp [extractJSONPathValue, if_neg h, hw, Json.isNull]
  · simp [extractJSONPathValue, if_neg h, hw]
  · simp [extractJSONPathValue, if_neg h, hw, hv]

/-- Witness for C5 amended: a nonempty path reaching null is not found; a
nonempty path reaching false is found; lookup failure is not found. -/
theorem claim5_amended_witness :
    extractJSONPathValue (Json.obj [("a", Json.null)]) ("$.a") = (Json.null, false)
    ∧ extractJSONPathValue (Json.obj [("a", Json.bool false)]) ("$.a")
      = (Json.bool false, true)
    ∧ extractJSONPathValue (Json.obj []) ("$.a") = (Json.null, false) :=
  ⟨(claim5_amended (Json.obj [("a", Json.null)]) ("$.a") (by decide)).1 rfl,
   (claim5_amended (Json.obj [("a", Json.bool false)]) ("$.a") (by decide)).2.2.1
      (Json.bool false) rfl rfl,
   (claim5_amended (Json.obj []) ("$.a") (by decide)).2.1 rfl⟩

/-- C6.  Every template occurrence whose path is found but whose value
stringifies to the empty string is substituted by the empty string with a
single field-is-empty error, whatever the omit and exact flags are; in
particular a whole string that is exactly such a template resolves to the
empty string with that single error under every options object, so the
omitNoValueForExactTemplates option never changes this case. -/
theorem claim6_found_empty_value (ctx v : Json) (p : String)
    (hf : extractJSONPathValue ctx p = (v, true)) (he : valueToString v = "") :
    (∀ om ex : Bool, replaceMatch ctx om ex p = ("", [emptyMsg p]))
    ∧ (∀ (q : String) (opts : Options), q.data ≠ [] → (∀ c ∈ q.data, c ≠ '}') →
        p = "$" ++ q →
        resolveTemplateString ("\x7b$" ++ q ++ "\x7d") ctx opts
          = ("", [emptyMsg p])) := by
  have hrm : ∀ om ex : Bool, replaceMatch ctx om ex p = ("", [emptyMsg p]) := by
    intro om ex
    simp [replaceMatch, hf, he]
  refine ⟨hrm, fun q opts hne hq hp => ?_⟩
  rw [resolveTemplateString_exact ctx opts q hne hq, ← hp, hrm]

/-- Witness for C6: a found empty-string value, as an occurrence with the
omit and exact flags set, and as a whole exact-template string under the
omit option. -/
theorem claim6_found_empty_value_witness :
    replaceMatch (Json.obj [("e", Json.str "")]) true true ("$.e")
      = ("", [emptyMsg ("$.e")])
    ∧ resolveTemplateString ("\x7b$" ++ ".e" ++ "\x7d") (Json.obj [("e", Json.str "")])
        [("omitNoValueForExactTemplates", true)]
      = ("", [emptyMsg ("$.e")]) :=
  ⟨(claim6_found_empty_value (Json.obj [("e", Json.str "")]) (Json.str "") ("$.e")
      rfl rfl).1 true true,
   (claim6_found_empty_value (Json.obj [("e", Json.str "")]) (Json.str "") ("$.e")
      rfl rfl).2 (".e") [("omitNoValueForExactTemplates", true)]
      (by decide) (by decide) rfl⟩

/-- C3 counterexample.  Passing an option named injectNamespace with
value false does NOT skip namespace injection: the injected timestamp is
still resolved with no error, while the option the code actually reads,
injectSGNLNamespace, does skip injection (the same call then reports the
path not found).  This refutes the claim that the option is named
injectNamespace. -/
theorem claim3_counterexample :
    resolveJSONPathTemplates (Json.str ("\x7b$.sgnl.time.now\x7d")) (Json.obj [])
        [("injectNamespace", false)] ⟨2025, 12, 4, 17, 30, 0, 123⟩
      = (Json.str ("2025-12-04T17:30:00Z"), [])
    ∧ resolveJSONPathTemplates (Json.str ("\x7b$.sgnl.time.now\x7d")) (Json.obj [])
        [("injectSGNLNamespace", false)] ⟨2025, 12, 4, 17, 30, 0, 123⟩
      = (Json.str NO_VALUE_PLACEHOLDER, [notFoundMsg ("$.sgnl.time.now")]) :=
  ⟨rfl, rfl⟩

/-- C3 amended.  The option that disables namespace injection is named
injectSGNLNamespace: with it set to false, resolution is performed
against the context as supplied by the caller (a falsy context is
replaced by the empty mapping) with no namespace merged in; with the
option absent or true (its default) the namespace is merged before
resolving. -/
theorem claim3_amended (input ctx : Json) (opts : Options) (now : JsDate) :
    (getOpt opts ("injectSGNLNamespace") true = false →
      resolveJSONPathTemplates input ctx opts now
        = resolveValue (if jsFalsy ctx then Json.obj [] else ctx)
            (getOpt opts ("omitNoValueForExactTemplates") false) input)
    ∧ (getOpt opts ("injectSGNLNamespace") true = true →
      resolveJSONPathTemplates input ctx opts now
        = resolveValue
            (injectSGNLNamespace (if jsFalsy ctx then Json.obj [] else ctx) now)
            (getOpt opts ("omitNoValueForExactTemplates") false) input) := by
  constructor <;> intro h <;> simp [resolveJSONPathTemplates, h]

/-- Witness for C3 amended at concrete inputs: with injectSGNLNamespace
false the caller context is used bare, and with empty options the
namespace is injected. -/
theorem claim3_amended_witness :
    resolveJSONPathTemplates (Json.str ("x")) (Json.obj [("k", Json.num 7)])
        [("injectSGNLNamespace", false)] ⟨2025, 12, 4, 17, 30, 0, 123⟩
      = resolveValue (Json.obj [("k", Json.num 7)]) false (Json.str ("x"))
    ∧ resolveJSONPathTemplates (Json.str ("x")) (Json.obj [("k", Json.num 7)]) []
        ⟨2025, 12, 4, 17, 30, 0, 123⟩
      = resolveValue
          (injectSGNLNamespace (Json.obj [("k", Json.num 7)])
            ⟨2025, 12, 4, 17, 30, 0, 123⟩) false (Json.str ("x")) :=
  ⟨(claim3_amended (Json.str ("x")) (Json.obj [("k", Json.num 7)])
      [("injectSGNLNamespace", false)] ⟨2025, 12, 4, 17, 30, 0, 123⟩).1 rfl,
   (claim3_amended (Json.str ("x")) (Json.obj [("k", Json.num 7)]) []
      ⟨2025, 12, 4, 17, 30, 0, 123⟩).2 rfl⟩

/-! Helper lemmas about object-literal construction, spread and lookup,
used for the namespace-injection claim. -/

/-- Lookup after overwriting every binding of a contained key. -/
theorem lookupField_map_set (fs : List (String × Json)) (k : String) (v : Json)
    (h : k ∈ fs.map Prod.fst) :
    lookupField (fs.map (fun kv => if kv.1 = k then (k, v) else kv)) k
      = some v := by
  induction fs with
  | nil => simp at h
  | cons kv rest ih =>
      simp only [List.map_cons]
      by_cases hk : kv.1 = k
      · rw [if_pos hk]
        simp [lookupField]
      · rw [if_neg hk]
        have hmem : k ∈ rest.map Prod.fst := by
          rw [List.map_cons] at h
          rcases List.mem_cons.mp h with h1 | h1
          · exact absurd h1.symm hk
          · exact h1
        simp [lookupField, hk, ih hmem]

/-- Lookup of a freshly appended key. -/
theorem lookupField_append_self (fs : List (String × Json)) (k : String) (v : Json)
    (h : k ∉ fs.map Prod.fst) :
    lookupField (fs ++ [(k, v)]) k = some v := by
  induction fs with
  | nil => simp [lookupField]
  | cons kv rest ih =>
      have hk : kv.1 ≠ k := fun he => h (by simp [he])
      have hrest : k ∉ rest.map Prod.fst := fun hm => h (by simp [hm])
      simp [lookupField, hk, ih hrest]

/-- Setting a key makes it look up to the new value. -/
theorem lookupField_jsInsert_self (fs : List (String × Json)) (k : String)
    (v : Json) : lookupField (jsInsert fs k v) k = some v := by
  unfold jsInsert
  by_cases h : k ∈ fs.map Prod.fst
  · rw [if_pos (List.elem_iff.mpr h)]
    exact lookupField_map_set fs k v h
  · rw [if_neg (fun hc => h (List.elem_iff.mp hc))]
    exact lookupField_append_self fs k v h

/-- Overwriting the bindings of one key leaves lookups of other keys
unchanged. -/
theorem lookupField_map_set_ne (fs : List (String × Json)) (k : String)
    (v : Json) (q : String) (h : q ≠ k) :
    lookupField (fs.map (fun kv => if kv.1 = k then (k, v) else kv)) q
      = lookupField fs q := by
  induction fs with
  | nil => rfl
  | cons kv rest ih =>
      simp only [List.map_cons]
      by_cases hk : kv.1 = k
      · rw [if_pos hk]
        simp [lookupField, hk, Ne.symm h, ih]
      · rw [if_neg hk]
        by_cases hq : kv.1 = q
        · simp [lookupField, hq]
        · simp [lookupField, hq, ih]

/-- Appending a binding of one key leaves lookups of other keys
unchanged. -/
theorem lookupField_append_ne (fs : List (String × Json)) (k : String)
    (v : Json) (q : String) (h : q ≠ k) :
    lookupField (fs ++ [(k, v)]) q = lookupField fs q := by
  induction fs with
  | nil => simp [lookupField, Ne.symm h]
  | cons kv rest ih =>
      by_cases hq : kv.1 = q
      · simp [lookupField, hq]
      · simp [lookupField, hq, ih]

/-- Setting one key leaves lookups of other keys unchanged. -/
theorem lookupField_jsInsert_ne (fs : List (String × Json)) (k : String)
    (v : Json) (q : String) (h : q ≠ k) :
    lookupField (jsInsert fs k v) q = lookupField fs q := by
  unfold jsInsert
  split
  · exact lookupField_map_set_ne fs k v q h
  · exact lookupField_append_ne fs k v q h

/-- Lookup fails exactly when the key is absent. -/
theorem lookupField_eq_none (fs : List (String × Json)) (k : String) :
    lookupField fs k = none ↔ k ∉ fs.map Prod.fst := by
  induction fs with
  | nil => simp [lookupField]
  | cons kv rest ih =>
      by_cases hk : kv.1 = k
      · simp [lookupField, hk]
      · simp [lookupField, hk, ih, Ne.symm hk]

/-- Spreading fields that do not mention a key leaves its lookup
unchanged. -/
theorem lookupField_jsSpreadInto_not_mem (gs : List (String × Json))
    (k : String) (h : k ∉ gs.map Prod.fst) :
    ∀ acc, lookupField (jsSpreadInto acc gs) k = lookupField acc k := by
  induction gs with
  | nil => intro acc; rfl
  | cons kv rest ih =>
      intro acc
      have hk : k ≠ kv.1 := fun he => h (by simp [he])
      have hrest : k ∉ rest.map Prod.fst := fun hm => h (by simp [hm])
      show lookupField (jsSpreadInto (jsInsert acc kv.1 kv.2) rest) k = _
      rw [ih hrest, lookupField_jsInsert_ne acc kv.1 kv.2 k hk]

/-- Spreading fields with duplicate-free keys makes a contained binding
win over the accumulator. -/
theorem lookupField_jsSpreadInto_mem (gs : List (String × Json)) (k : String)
    (w : Json) (hnd : (gs.map Prod.fst).Nodup) (h : lookupField gs k = some w) :
    ∀ acc, lookupField (jsSpreadInto acc gs) k = some w := by
  induction gs with
  | nil => intro acc; simp [lookupField] at h
  | cons kv rest ih =>
      intro acc
      show lookupField (jsSpreadInto (jsInsert acc kv.1 kv.2) rest) k = some w
      rw [List.map_cons] at hnd
      by_cases hk : kv.1 = k
      · have hv : kv.2 = w := by simpa [lookupField, hk] using h
        have hnm : k ∉ rest.map Prod.fst := by
          have := (List.nodup_cons.mp hnd).1
          exact hk ▸ this
        rw [lookupField_jsSpreadInto_not_mem rest k hnm, hk, hv,
          lookupField_jsInsert_self]
      · have hrest : lookupField rest k = some w := by
          simpa [lookupField, hk] using h
        exact ih (List.nodup_cons.mp hnd).2 hrest _

/-- Spreading into the empty literal reproduces lookups, for
duplicate-free keys. -/
theorem lookupField_jsSpreadInto_nil (gs : List (String × Json)) (k : String)
    (hnd : (gs.map Prod.fst).Nodup) :
    lookupField (jsSpreadInto [] gs) k = lookupField gs k := by
  cases hl : lookupField gs k with
  | some w => exact lookupField_jsSpreadInto_mem gs k w hnd hl []
  | none =>
      rw [lookupField_jsSpreadInto_not_mem gs k ((lookupField_eq_none gs k).mp hl)]
      rfl

/-- Every character produced by the digit renderer is a decimal digit. -/
theorem digitChar_isDigit (n : Nat) : (digitChar n).isDigit = true := by
  unfold digitChar
  have h : n % 10 < 10 := Nat.mod_lt _ (by norm_num)
  interval_cases hk : n % 10 <;> decide

/-- Character-level form of the formatted timestamp: the millisecond part
of the ISO rendering is stripped, leaving the nineteen date-time
characters and the trailing Z. -/
theorem formatRFC3339_data (d : JsDate) :
    (formatRFC3339 d).data
      = [digitChar (d.year / 1000), digitChar (d.year / 100),
         digitChar (d.year / 10), digitChar d.year, '-',
         digitChar (d.month / 10), digitChar d.month, '-',
         digitChar (d.day / 10), digitChar d.day, 'T',
         digitChar (d.hour / 10), digitChar d.hour, ':',
         digitChar (d.minute / 10), digitChar d.minute, ':',
         digitChar (d.second / 10), digitChar d.second, 'Z'] := by
  have h1 : (toISOString d).data
      = [digitChar (d.year / 1000), digitChar (d.year / 100),
         digitChar (d.year / 10), digitChar d.year, '-',
         digitChar (d.month / 10), digitChar d.month, '-',
         digitChar (d.day / 10), digitChar d.day, 'T',
         digitChar (d.hour / 10), digitChar d.hour, ':',
         digitChar (d.minute / 10), digitChar d.minute, ':',
         digitChar (d.second / 10), digitChar d.second, '.',
         digitChar (d.millis / 100), digitChar (d.millis / 10),
         digitChar d.millis, 'Z'] := rfl
  unfold formatRFC3339 stripMillisZ
  rw [h1]
  simp [digitChar_isDigit]

/-- The formatted timestamp is never the empty string. -/
theorem formatRFC3339_ne_empty (d : JsDate) : formatRFC3339 d ≠ "" := by
  intro h
  have h2 := congrArg String.data h
  rw [formatRFC3339_data] at h2
  simp at h2

/-- The formatted timestamp always has the RFC-3339 second-precision
shape with the trailing Z. -/
theorem isRFC3339_formatRFC3339 (d : JsDate) :
    isRFC3339SecondZ (formatRFC3339 d) = true := by
  unfold isRFC3339SecondZ
  rw [formatRFC3339_data]
  simp [digitChar_isDigit]

/-- Extraction of the injected timestamp path from an injected context
whose caller supplied no sgnl key. -/
theorem extract_injected_now (ctx : Json) (d : JsDate)
    (h : jsGetProp ctx ("sgnl") = none) :
    extractJSONPathValue (injectSGNLNamespace ctx d) ("$.sgnl.time.now")
      = (Json.str (formatRFC3339 d), true) := by
  have htf : injTimeFields ctx d = [("now", Json.str (formatRFC3339 d))] := by
    unfold injTimeFields
    rw [h]
    rfl
  have hsf : injSgnlFields ctx d = [("time", Json.obj (injTimeFields ctx d))] := by
    unfold injSgnlFields
    rw [h]
    rfl
  show (match walk (parsePath (stripDollar ("$.sgnl.time.now")))
          (injectSGNLNamespace ctx d) with
    | none => (Json.null, false)
    | some v => if v.isNull then (Json.null, false) else (v, true)) = _
  have hseg : parsePath (stripDollar ("$.sgnl.time.now"))
      = ["sgnl", "time", "now"] := rfl
  rw [hseg]
  unfold injectSGNLNamespace
  simp only [walk]
  rw [lookupField_jsInsert_self, hsf, htf]
  simp [walk, lookupField, Json.isNull]

/-- C2.  Namespace injection, for dates whose components are in the range
the modelled toISOString renders faithfully (the Date constructor
guarantees this): the injected now value has the RFC-3339 second-precision
shape with the trailing Z; a caller-supplied sgnl.time mapping with
duplicate-free keys overrides the fresh now value exactly when it holds a
now key, and otherwise the fresh value remains; in the absence of a
caller sgnl.time value the merged time object is exactly the fresh one;
pre-existing sgnl siblings other than time look up unchanged in the
merged sgnl object; and when the caller supplies no sgnl value at all,
every occurrence of the injected-timestamp template is replaced by the
identical string, the formatted now, both per occurrence (any flags) and
for the whole exact-template string (any options) — identity across
occurrences in one top-level call follows because every string in that
call is resolved against this one injected context with the one now
instant read at injection time. -/
theorem claim2_namespace_injection (d : JsDate)
    (hyr : d.year < 10000) (hmo : d.month < 100) (hdy : d.day < 100)
    (hhr : d.hour < 100) (hmi : d.minute < 100) (hsec : d.second < 100)
    (hms : d.millis < 1000) :
    isRFC3339SecondZ (formatRFC3339 d) = true
    ∧ (∀ (ctx : Json) (tf : List (String × Json)) (w : Json),
        (jsGetProp ctx ("sgnl")).bind (fun s => jsGetProp s ("time"))
          = some (Json.obj tf) →
        (tf.map Prod.fst).Nodup → lookupField tf ("now") = some w →
        lookupField (injTimeFields ctx d) ("now") = some w)
    ∧ (∀ (ctx : Json) (tf : List (String × Json)),
        (jsGetProp ctx ("sgnl")).bind (fun s => jsGetProp s ("time"))
          = some (Json.obj tf) →
        lookupField tf ("now") = none →
        lookupField (injTimeFields ctx d) ("now")
          = some (Json.str (formatRFC3339 d)))
    ∧ (∀ ctx : Json,
        (jsGetProp ctx ("sgnl")).bind (fun s => jsGetProp s ("time")) = none →
        injTimeFields ctx d = [("now", Json.str (formatRFC3339 d))])
    ∧ (∀ (ctx : Json) (gs : List (String × Json)) (k : String),
        jsGetProp ctx ("sgnl") = some (Json.obj gs) →
        (gs.map Prod.fst).Nodup → k ≠ "time" →
        lookupField (injSgnlFields ctx d) k = lookupField gs k)
    ∧ (∀ (ctx : Json) (om ex : Bool), jsGetProp ctx ("sgnl") = none →
        replaceMatch (injectSGNLNamespace ctx d) om ex ("$.sgnl.time.now")
          = (formatRFC3339 d, []))
    ∧ (∀ (ctx : Json) (opts : Options), jsGetProp ctx ("sgnl") = none →
        resolveTemplateString ("\x7b$.sgnl.time.now\x7d")
            (injectSGNLNamespace ctx d) opts
          = (formatRFC3339 d, [])) := by
  have hrm : ∀ (ctx : Json) (om ex : Bool), jsGetProp ctx ("sgnl") = none →
      replaceMatch (injectSGNLNamespace ctx d) om ex ("$.sgnl.time.now")
        = (formatRFC3339 d, []) := by
    intro ctx om ex h
    simp [replaceMatch, extract_injected_now ctx d h, valueToString,
      formatRFC3339_ne_empty d]
  refine ⟨isRFC3339_formatRFC3339 d, ?_, ?_, ?_, ?_, hrm, ?_⟩
  · intro ctx tf w hchain hnd hnow
    unfold injTimeFields
    rw [hchain]
    exact lookupField_jsSpreadInto_mem tf ("now") w hnd hnow _
  · intro ctx tf hchain hnone
    unfold injTimeFields
    rw [hchain]
    show lookupField (jsSpreadInto [("now", Json.str (formatRFC3339 d))] tf)
      ("now") = _
    rw [lookupField_jsSpreadInto_not_mem tf ("now")
      ((lookupField_eq_none tf ("now")).mp hnone)]
    rfl
  · intro ctx hchain
    unfold injTimeFields
    rw [hchain]
    rfl
  · intro ctx gs k hg hnd hk
    unfold injSgnlFields
    rw [hg]
    show lookupField (jsInsert (jsSpreadInto [] gs) ("time")
      (Json.obj (injTimeFields ctx d))) k = _
    rw [lookupField_jsInsert_ne _ _ _ _ hk]
    exact lookupField_jsSpreadInto_nil gs k hnd
  · intro ctx opts h
    have hq1 : (".sgnl.time.now" : String).data ≠ [] := by decide
    have hq2 : ∀ c ∈ (".sgnl.time.now" : String).data, c ≠ '}' := by decide
    have hs : ("\x7b$.sgnl.time.now\x7d" : String)
        = "\x7b$" ++ ".sgnl.time.now" ++ "\x7d" := rfl
    have hp : ("$" ++ ".sgnl.time.now" : String) = "$.sgnl.time.now" := rfl
    rw [hs, resolveTemplateString_exact (injectSGNLNamespace ctx d) opts
      (".sgnl.time.now") hq1 hq2, hp]
    exact hrm ctx _ true h

/-- Witness for C2 at a concrete date: the formatted value has the
RFC-3339 shape; a caller-frozen now wins; a sibling env key looks up
unchanged; and on an empty caller context the exact-template string
resolves to the injected timestamp with no errors. -/
theorem claim2_namespace_injection_witness :
    isRFC3339SecondZ (formatRFC3339 ⟨2025, 12, 4, 17, 30, 0, 123⟩) = true
    ∧ lookupField (injTimeFields (Json.obj [("sgnl", Json.obj
          [("time", Json.obj [("now", Json.str ("FROZEN"))]),
           ("env", Json.str ("prod"))])])
        ⟨2025, 12, 4, 17, 30, 0, 123⟩) ("now") = some (Json.str ("FROZEN"))
    ∧ lookupField (injSgnlFields (Json.obj [("sgnl", Json.obj
          [("time", Json.obj [("now", Json.str ("FROZEN"))]),
           ("env", Json.str ("prod"))])])
        ⟨2025, 12, 4, 17, 30, 0, 123⟩) ("env")
      = lookupField [("time", Json.obj [("now", Json.str ("FROZEN"))]),
         ("env", Json.str ("prod"))] ("env")
    ∧ resolveTemplateString ("\x7b$.sgnl.time.now\x7d")
        (injectSGNLNamespace (Json.obj []) ⟨2025, 12, 4, 17, 30, 0, 123⟩) []
      = (formatRFC3339 ⟨2025, 12, 4, 17, 30, 0, 123⟩, []) := by
  have h := claim2_namespace_injection ⟨2025, 12, 4, 17, 30, 0, 123⟩
    (by decide) (by decide) (by decide) (by decide) (by decide) (by decide)
    (by decide)
  exact ⟨h.1,
    h.2.1 (Json.obj [("sgnl", Json.obj
        [("time", Json.obj [("now", Json.str ("FROZEN"))]),
         ("env", Json.str ("prod"))])])
      [("now", Json.str ("FROZEN"))] (Json.str ("FROZEN")) rfl (by simp) rfl,
    h.2.2.2.2.1 (Json.obj [("sgnl", Json.obj
        [("time", Json.obj [("now", Json.str ("FROZEN"))]),
         ("env", Json.str ("prod"))])])
      [("time", Json.obj [("now", Json.str ("FROZEN"))]),
       ("env", Json.str ("prod"))] ("env") rfl (by simp) (by decide),
    h.2.2.2.2.2.2 (Json.obj []) [] rfl⟩

/-! Helper lemmas for template-free strings and values. -/

/-- A scan that never completes a match copies the input (after the
pending characters of the entry state) and produces no errors. -/
theorem scanTemplate_no_occ (ctx : Json) (om ex : Bool) :
    ∀ (cs : List Char) (st : ScanState), hasOccAux cs st = false →
      scanTemplate ctx om ex cs st = (statePending st ++ cs, []) := by
  intro cs
  induction cs with
  | nil =>
      intro st h
      cases st <;> simp [scanTemplate, statePending]
  | cons c rest ih =>
      intro st h
      cases st with
      | outside =>
          by_cases hc : c = '{'
          · rw [hc] at h ⊢
            simp only [scanTemplate, if_pos rfl]
            rw [ih ScanState.afterBrace (by simpa [hasOccAux] using h)]
            simp [statePending]
          · simp only [scanTemplate, if_neg hc]
            rw [ih ScanState.outside (by simpa [hasOccAux, hc] using h)]
            simp [statePending]
      | afterBrace =>
          by_cases hd : c = '$'
          · rw [hd] at h ⊢
            simp only [scanTemplate, if_pos rfl]
            rw [ih (ScanState.inTemplate []) (by simpa [hasOccAux] using h)]
            simp [statePending]
          · by_cases hc : c = '{'
            · rw [hc] at h hd ⊢
              simp only [scanTemplate, if_neg hd, if_pos rfl]
              rw [ih ScanState.afterBrace (by simpa [hasOccAux, hd] using h)]
              simp [statePending]
            · simp only [scanTemplate, if_neg hd, if_neg hc]
              rw [ih ScanState.outside (by simpa [hasOccAux, hd, hc] using h)]
              simp [statePending]
      | inTemplate inner =>
          by_cases hc : c = '}'
          · rw [hc] at h ⊢
            by_cases hemp : inner.isEmpty
            · simp only [scanTemplate, if_pos rfl, hemp, if_pos rfl]
              rw [ih ScanState.outside (by simpa [hasOccAux, hemp] using h)]
              have hin : inner = [] := by
                cases inner with
                | nil => rfl
                | cons a as => simp [List.isEmpty] at hemp
              simp [statePending, hin]
            · exfalso
              simp [hasOccAux, hemp] at h
          · simp only [scanTemplate, if_neg hc]
            rw [ih (ScanState.inTemplate (inner ++ [c]))
              (by simpa [hasOccAux, hc] using h)]
            simp [statePending]

/-- A string with no template occurrence resolves to itself with no
errors, for every context and options. -/
theorem resolveTemplateString_no_occ (s : String)
    (hs : stringHasTemplate s = false) :
    ∀ (ctx : Json) (opts : Options), resolveTemplateString s ctx opts = (s, []) := by
  intro ctx opts
  show (String.mk (scanTemplate ctx
      (getOpt opts ("omitNoValueForExactTemplates") false)
      (isExactTemplate s) s.data ScanState.outside).1,
    (scanTemplate ctx (getOpt opts ("omitNoValueForExactTemplates") false)
      (isExactTemplate s) s.data ScanState.outside).2) = (s, [])
  rw [scanTemplate_no_occ ctx _ _ s.data ScanState.outside hs]
  simp [statePending]

mutual

/-- Template-free values resolve to themselves with no errors (with the
omit option off). -/
theorem resolveValue_tfree (ctx : Json) : ∀ j : Json, templateFree j = true →
    resolveValue ctx false j = (j, [])
  | Json.str s, h => by
      have hs : stringHasTemplate s = false := by
        simpa [templateFree] using h
      simp [resolveValue, resolveTemplateString_no_occ s hs]
  | Json.arr xs, h => by
      have hl := resolveList_tfree ctx xs (by simpa [templateFree] using h)
      simp [resolveValue, hl]
  | Json.obj fs, h => by
      have hl := resolveFields_tfree ctx fs (by simpa [templateFree] using h)
      simp [resolveValue, hl]
  | Json.null, _ => rfl
  | Json.bool _, _ => rfl
  | Json.num _, _ => rfl

/-- Template-free lists resolve to themselves with no errors. -/
theorem resolveList_tfree (ctx : Json) : ∀ xs : List Json,
    templateFreeList xs = true → resolveList ctx false xs = (xs, [])
  | [], _ => rfl
  | x :: rest, h => by
      have h2 : templateFree x = true ∧ templateFreeList rest = true := by
        simpa [templateFreeList, Bool.and_eq_true] using h
      simp [resolveList, resolveValue_tfree ctx x h2.1,
        resolveList_tfree ctx rest h2.2]

/-- Template-free field lists resolve to themselves with no errors. -/
theorem resolveFields_tfree (ctx : Json) : ∀ fs : List (String × Json),
    templateFreeFields fs = true → resolveFields ctx false fs = (fs, [])
  | [], _ => rfl
  | (k, v) :: rest, h => by
      have h2 : templateFree v = true ∧ templateFreeFields rest = true := by
        simpa [templateFreeFields, Bool.and_eq_true] using h
      simp [resolveFields, resolveValue_tfree ctx v h2.1,
        resolveFields_tfree ctx rest h2.2]

end

/-- C7.  A template-free input (no string in it has a template
occurrence) resolves, with the omit option at its default false, to a
deep-equal copy of itself with an empty error list; and a top-level
string with no occurrence is returned unchanged with no errors under
every context, options and instant. -/
theorem claim7_template_free_identity (input ctx : Json) (opts : Options)
    (now : JsDate) (hfree : templateFree input = true)
    (homit : getOpt opts ("omitNoValueForExactTemplates") false = false) :
    resolveJSONPathTemplates input ctx opts now = (input, [])
    ∧ (∀ (s : String) (c : Json) (o : Options) (n : JsDate),
        stringHasTemplate s = false →
        resolveJSONPathTemplates (Json.str s) c o n = (Json.str s, [])) := by
  constructor
  · show resolveValue _ (getOpt opts ("omitNoValueForExactTemplates") false)
      input = _
    rw [homit]
    exact resolveValue_tfree _ input hfree
  · intro s c o n hs
    show resolveValue _ (getOpt o ("omitNoValueForExactTemplates") false)
      (Json.str s) = _
    simp [resolveValue, resolveTemplateString_no_occ s hs]

/-- Witness for C7 on a concrete template-free mapping with nested
scalars, including an empty string, under default options. -/
theorem claim7_template_free_identity_witness :
    resolveJSONPathTemplates
        (Json.obj [("x", Json.str ("plain")), ("n", Json.num 5),
          ("l", Json.arr [Json.bool true, Json.null, Json.str ""])])
        (Json.obj [("y", Json.str ("z"))]) [] ⟨2025, 12, 4, 17, 30, 0, 123⟩
      = (Json.obj [("x", Json.str ("plain")), ("n", Json.num 5),
          ("l", Json.arr [Json.bool true, Json.null, Json.str ""])], []) :=
  (claim7_template_free_identity
    (Json.obj [("x", Json.str ("plain")), ("n", Json.num 5),
      ("l", Json.arr [Json.bool true, Json.null, Json.str ""])])
    (Json.obj [("y", Json.str ("z"))]) [] ⟨2025, 12, 4, 17, 30, 0, 123⟩
    (by decide) rfl).1

/-- C8.  With the omit option set: an array resolves to its elementwise
resolution filtered of empty-string results; a mapping key whose value
resolves to the empty string is omitted while its errors are kept; and
the documented example, a mapping of one missing exact template and one
literal against an empty context, resolves to the mapping without the
dropped key and exactly one field-not-found error. -/
theorem claim8_omit_empty_resolutions (ctx : Json) (xs : List Json)
    (k : String) (v : Json) (rest : List (String × Json))
    (hdrop : isEmptyStr (resolveValue ctx true v).1 = true) :
    resolveValue ctx true (Json.arr xs)
      = (Json.arr ((resolveList ctx true xs).1.filter
          (fun item => !isEmptyStr item)),
         (resolveList ctx true xs).2)
    ∧ resolveFields ctx true ((k, v) :: rest)
      = ((resolveFields ctx true rest).1,
         (resolveValue ctx true v).2 ++ (resolveFields ctx true rest).2)
    ∧ (∀ now : JsDate, resolveJSONPathTemplates
        (Json.obj [("a", Json.str ("\x7b$.missing\x7d")),
          ("b", Json.str ("kept"))])
        (Json.obj []) [("omitNoValueForExactTemplates", true)] now
      = (Json.obj [("b", Json.str ("kept"))], [notFoundMsg ("$.missing")])) := by
  refine ⟨by simp [resolveValue], ?_, fun now => rfl⟩
  simp [resolveFields, hdrop]

/-- Witness for C8: a one-key mapping whose value is a missing exact
template loses the key but keeps the error. -/
theorem claim8_omit_empty_resolutions_witness :
    resolveFields (Json.obj []) true [("a", Json.str ("\x7b$.missing\x7d"))]
      = ([], [notFoundMsg ("$.missing")]) :=
  (claim8_omit_empty_resolutions (Json.obj []) [] ("a")
    (Json.str ("\x7b$.missing\x7d")) [] rfl).2.1

/-- Every error of the replacement callback is of one of the two
taxonomy forms, naming the occurrence path. -/
theorem replaceMatch_errors (ctx : Json) (om ex : Bool) (p : String) :
    ∀ e ∈ (replaceMatch ctx om ex p).2, e = notFoundMsg p ∨ e = emptyMsg p := by
  intro e he
  unfold replaceMatch at he
  rcases hr : extractJSONPathValue ctx p with ⟨v, found⟩
  rw [hr] at he
  cases found with
  | false =>
      simp at he
      exact Or.inl he
  | true =>
      by_cases hv : valueToString v = ""
      · simp [hv] at he
        exact Or.inr he
      · simp [hv] at he

/-- Every error of the scan is of one of the two taxonomy forms. -/
theorem scanTemplate_errors (ctx : Json) (om ex : Bool) :
    ∀ (cs : List Char) (st : ScanState) (e : String),
      e ∈ (scanTemplate ctx om ex cs st).2 →
      ∃ p, e = notFoundMsg p ∨ e = emptyMsg p := by
  intro cs
  induction cs with
  | nil =>
      intro st e he
      cases st <;> simp [scanTemplate] at he
  | cons c rest ih =>
      intro st e he
      cases st with
      | outside =>
          by_cases hc : c = '{'
          · simp only [scanTemplate, if_pos hc] at he
            exact ih _ _ he
          · simp only [scanTemplate, if_neg hc] at he
            exact ih _ _ he
      | afterBrace =>
          by_cases hd : c = '$'
          · simp only [scanTemplate, if_pos hd] at he
            exact ih _ _ he
          · by_cases hc : c = '{'
            · simp only [scanTemplate, if_neg hd, if_pos hc] at he
              exact ih _ _ he
            · simp only [scanTemplate, if_neg hd, if_neg hc] at he
              exact ih _ _ he
      | inTemplate inner =>
          by_cases hc : c = '}'
          · by_cases hemp : inner.isEmpty
            · simp only [scanTemplate, if_pos hc, hemp, if_pos rfl] at he
              exact ih _ _ he
            · simp only [scanTemplate, if_pos hc, hemp] at he
              rcases List.mem_append.mp (by simpa using he) with h1 | h1
              · rcases replaceMatch_errors ctx om ex
                  (String.mk ('$' :: inner)) e h1 with h2 | h2
                · exact ⟨String.mk ('$' :: inner), Or.inl h2⟩
                · exact ⟨String.mk ('$' :: inner), Or.inr h2⟩
              · exact ih _ _ h1
          · simp only [scanTemplate, if_neg hc] at he
            exact ih _ _ he

/-- Every error of single-string resolution is of one of the two
taxonomy forms. -/
theorem resolveTemplateString_errors (s : String) (ctx : Json)
    (opts : Options) :
    ∀ e ∈ (resolveTemplateString s ctx opts).2,
      ∃ p, e = notFoundMsg p ∨ e = emptyMsg p := by
  intro e he
  exact scanTemplate_errors ctx _ _ s.data ScanState.outside e he

mutual

/-- Every error of structural resolution is of one of the two taxonomy
forms. -/
theorem resolveValue_errors (ctx : Json) (om : Bool) :
    ∀ (j : Json) (e : String), e ∈ (resolveValue ctx om j).2 →
      ∃ p, e = notFoundMsg p ∨ e = emptyMsg p
  | Json.str s, e, he => by
      exact resolveTemplateString_errors s ctx _ e
        (by simpa [resolveValue] using he)
  | Json.arr xs, e, he =>
      resolveList_errors ctx om xs e (by simpa [resolveValue] using he)
  | Json.obj fs, e, he =>
      resolveFields_errors ctx om fs e (by simpa [resolveValue] using he)
  | Json.null, e, he => by simp [resolveValue] at he
  | Json.bool b, e, he => by simp [resolveValue] at he
  | Json.num n, e, he => by simp [resolveValue] at he

/-- Every error of elementwise resolution is of one of the two taxonomy
forms. -/
theorem resolveList_errors (ctx : Json) (om : Bool) :
    ∀ (xs : List Json) (e : String), e ∈ (resolveList ctx om xs).2 →
      ∃ p, e = notFoundMsg p ∨ e = emptyMsg p
  | [], e, he => by simp [resolveList] at he
  | x :: rest, e, he => by
      rcases List.mem_append.mp (by simpa [resolveList] using he) with h1 | h1
      · exact resolveValue_errors ctx om x e h1
      · exact resolveList_errors ctx om rest e h1

/-- Every error of fieldwise resolution is of one of the two taxonomy
forms. -/
theorem resolveFields_errors (ctx : Json) (om : Bool) :
    ∀ (fs : List (String × Json)) (e : String),
      e ∈ (resolveFields ctx om fs).2 →
      ∃ p, e = notFoundMsg p ∨ e = emptyMsg p
  | [], e, he => by simp [resolveFields] at he
  | (k, v) :: rest, e, he => by
      rcases List.mem_append.mp (by simpa [resolveFields] using he) with h1 | h1
      · exact resolveValue_errors ctx om v e h1
      · exact resolveFields_errors ctx om rest e h1

end

/-- C9.  Resolution is total and never raises: it always returns a
result-errors pair, every message in the returned error list is of one of
the two taxonomy forms (field not found, field is empty) for some path,
and an internal traversal anomaly such as a malformed path (an unclosed
bracket) degrades to not found rather than propagating. -/
theorem claim9_total_error_capture (input ctx : Json) (opts : Options)
    (now : JsDate) :
    (∃ (r : Json) (es : List String),
        resolveJSONPathTemplates input ctx opts now = (r, es))
    ∧ (∀ e ∈ (resolveJSONPathTemplates input ctx opts now).2,
        ∃ p, e = notFoundMsg p ∨ e = emptyMsg p)
    ∧ extractJSONPathValue (Json.obj [("a", Json.str ("x"))]) ("$.a[0")
      = (Json.null, false) := by
  refine ⟨⟨_, _, rfl⟩, ?_, rfl⟩
  intro e he
  exact resolveValue_errors _ _ input e he

/-- Witness for C9: the single error produced by a missing path in a
concrete call is of the taxonomy form. -/
theorem claim9_total_error_capture_witness :
    ∃ p, notFoundMsg ("$.q") = notFoundMsg p
      ∨ notFoundMsg ("$.q") = emptyMsg p :=
  (claim9_total_error_capture (Json.str ("\x7b$.q\x7d")) (Json.obj []) []
    ⟨2025, 12, 4, 17, 30, 0, 123⟩).2.1 (notFoundMsg ("$.q")) (by decide)

/-- C10.  With the omit option set, omission is decided purely by the
resolved value being the empty string: a mapping value that is the
literal empty string (no template at all) is dropped with no error; a
sequence element that is the literal empty string is dropped with no
error; and a value holding a template whose found value stringifies to
empty resolves to the empty string and is dropped, with the
field-is-empty error kept. -/
theorem claim10_omission_by_empty_string :
    (∀ (ctx : Json) (k : String) (rest : List (String × Json)),
      resolveFields ctx true ((k, Json.str "") :: rest)
        = ((resolveFields ctx true rest).1, (resolveFields ctx true rest).2))
    ∧ (∀ now : JsDate, resolveJSONPathTemplates
        (Json.arr [Json.str "", Json.str ("kept")]) (Json.obj [])
        [("omitNoValueForExactTemplates", true)] now
      = (Json.arr [Json.str ("kept")], []))
    ∧ (∀ now : JsDate, resolveJSONPathTemplates
        (Json.obj [("a", Json.str ("\x7b$.e\x7d")), ("b", Json.str ("y"))])
        (Json.obj [("e", Json.str "")])
        [("omitNoValueForExactTemplates", true)] now
      = (Json.obj [("b", Json.str ("y"))], [emptyMsg ("$.e")])) := by
  refine ⟨?_, fun now => rfl, fun now => rfl⟩
  intro ctx k rest
  have h0 : resolveValue ctx true (Json.str "") = (Json.str "", []) := rfl
  simp [resolveFields, h0, isEmptyStr]

end TemplateResolver
